import Mathlib

/-!
Verification development for the analysis-result repository
(`app/repositories/analysis_repo.py`): a content-addressable result cache
with lookup-or-create reconciliation, an ordered child writer for math
steps, and batch create/delete/update operations, all layered over a
transactional relational store.

The store is embedded shallowly: a `Store` is the list of committed
`LiteratureAnalysis` rows plus an id counter; each repository operation is
a function from observed store states to a resulting store and a result
value.  `save_literature_analysis` takes three store arguments — the store
observed at the initial lookup, at the insert/commit attempt, and at the
post-rollback re-lookup — so that concurrent interference between the
transactional units can be expressed; a sequential (interference-free)
call passes the same store three times.  Times are naturals (seconds);
`datetime.utcnow()` becomes an explicit `now` parameter.
-/

namespace AnalysisRepo

/-- Opaque structured payload (the `results` dict and similar JSON
columns); the repository never inspects it. -/
abbrev Payload := String

/-- Store-level (SQLAlchemy) exception kinds the repository can see:
`IntegrityError` on a uniqueness violation, and the
`scalar_one_or_none` multiple-rows error. -/
inductive DBError where
  | uniqueViolation
  | multipleResultsFound
deriving DecidableEq

/-- What a repository operation can surface to its caller: either a raw
store exception re-raised unchanged, or a typed domain failure carrying
entity kind and business key (the shape the spec's propagation policy
describes). -/
inductive SurfacedError where
  | raw (e : DBError)
  | typed (entity : String) (sessionId analysisType contentHash : String)
deriving DecidableEq

/-- A committed `LiteratureAnalysis` row (the CachedResult entity).
Column set from `save_literature_analysis` / `batch_create_literature_analyses`
construction sites; `processing_time_ms`, `tokens_used`, `model_used` are
optional because the batch path reads them with `.get`. -/
structure LiteratureAnalysis where
  id : Nat
  session_id : String
  analysis_type : String
  content_version : Int
  content_hash : String
  results : Payload
  processing_time_ms : Option Int
  tokens_used : Option Int
  model_used : Option String
  is_cached : Bool
  cache_hit_count : Nat
  created_at : Nat
  expires_at : Option Nat
deriving DecidableEq

/-- The committed state of the `literature_analyses` table plus the next
auto-assigned identity. -/
structure Store where
  rows : List LiteratureAnalysis
  nextId : Nat
deriving DecidableEq

/-- The business-key match used by every lookup:
`session_id == sid AND analysis_type == atype AND content_hash == chash`. -/
def matchesKey (r : LiteratureAnalysis) (sid atype chash : String) : Bool :=
  r.session_id == sid && r.analysis_type == atype && r.content_hash == chash

/-- The expiry filter of the lookup query:
`expires_at IS NULL OR expires_at > utcnow()`. -/
def isLive (r : LiteratureAnalysis) (now : Nat) : Bool :=
  match r.expires_at with
  | none => true
  | some t => now < t

/-- The rows the lookup query selects: business-key match, not expired. -/
def liveMatches (st : Store) (sid atype chash : String) (now : Nat) :
    List LiteratureAnalysis :=
  st.rows.filter (fun r => matchesKey r sid atype chash && isLive r now)

/-- Embeds `get_literature_analysis_by_hash`: the filtered select followed by
`scalar_one_or_none`, which returns the unique matching row, `None` on no
match, and raises on more than one match. -/
def get_literature_analysis_by_hash (st : Store) (sid atype chash : String)
    (now : Nat) : Except DBError (Option LiteratureAnalysis) :=
  match liveMatches st sid atype chash now with
  | [] => .ok none
  | [r] => .ok (some r)
  | _ :: _ :: _ => .error .multipleResultsFound

/-- The cache-hit mutation: `existing.cache_hit_count += 1` and nothing
else. -/
def bump (r : LiteratureAnalysis) : LiteratureAnalysis :=
  { r with cache_hit_count := r.cache_hit_count + 1 }

/-- Commit an in-place mutation of the row with identity `i`. -/
def updateRow (st : Store) (i : Nat)
    (f : LiteratureAnalysis → LiteratureAnalysis) : Store :=
  { st with rows := st.rows.map (fun r => if r.id = i then f r else r) }

/-- One hour, in seconds: `timedelta(hours=1)`. -/
def oneHour : Nat := 3600

/-- Modelled from the spec: the store's uniqueness arbiter.  The column
declarations live in `app/database/models.py`, which is not under `src/`;
per the data model ("business key `(session_id, analysis_type,
content_hash)`, must be unique among non-expired rows") and §8 (an expired
row does not block a fresh insert of the same key), an insert conflicts
exactly when a non-expired row with the same business key is already
committed. -/
def insertConflicts (st : Store) (sid atype chash : String) (now : Nat) : Bool :=
  !(liveMatches st sid atype chash now).isEmpty

/-- The row `save_literature_analysis` constructs on a miss.
`cache_hit_count := 0` and `created_at := now` are modelled from the spec
(`cache_hit_count` "monotonic, starts at 0"; `created_at` a creation
timestamp) because the column defaults live in the missing
`app/database/models.py`; the code itself sets `is_cached = False` and
`expires_at = utcnow() + timedelta(hours=1)`. -/
def mkNewAnalysis (i : Nat) (now : Nat) (sid atype : String) (cver : Int)
    (chash : String) (res : Payload) (ptime tok : Int) (model : String) :
    LiteratureAnalysis :=
  { id := i
    session_id := sid
    analysis_type := atype
    content_version := cver
    content_hash := chash
    results := res
    processing_time_ms := some ptime
    tokens_used := some tok
    model_used := some model
    is_cached := false
    cache_hit_count := 0
    created_at := now
    expires_at := some (now + oneHour) }

/-- Embeds `save_literature_analysis`.  `st1` is the store observed by the
initial lookup, `st2` the committed store the insert attempt is checked
against, `st3` the store observed by the post-rollback re-lookup; a
sequential call has `st1 = st2 = st3`.  Control flow follows the source:
lookup; on hit increment-and-commit; on miss insert; on `IntegrityError`
rollback, re-lookup once, increment on hit, and re-`raise` the store
exception on a second miss. -/
def save_literature_analysis (st1 st2 st3 : Store) (now : Nat)
    (sid atype : String) (cver : Int) (chash : String) (res : Payload)
    (ptime tok : Int) (model : String) :
    Store × Except SurfacedError LiteratureAnalysis :=
  match get_literature_analysis_by_hash st1 sid atype chash now with
  | .error e => (st1, .error (.raw e))
  | .ok (some existing) =>
      (updateRow st1 existing.id bump, .ok (bump existing))
  | .ok none =>
      if insertConflicts st2 sid atype chash now then
        match get_literature_analysis_by_hash st3 sid atype chash now with
        | .error e => (st3, .error (.raw e))
        | .ok (some existing) =>
            (updateRow st3 existing.id bump, .ok (bump existing))
        | .ok none => (st3, .error (.raw .uniqueViolation))
      else
        let a := mkNewAnalysis st2.nextId now sid atype cver chash res ptime tok model
        ({ rows := st2.rows ++ [a], nextId := st2.nextId + 1 }, .ok a)

/-- One entry of `batch_create_literature_analyses`: the required dict
keys (`analysis_data[...]`) are non-optional, the `.get` keys optional. -/
structure AnalysisEntry where
  session_id : String
  analysis_type : String
  content_version : Int
  content_hash : String
  results : Payload
  processing_time_ms : Option Int
  tokens_used : Option Int
  model_used : Option String
deriving DecidableEq

/-- The row the batch path constructs on a miss: unlike
`save_literature_analysis`, it does not set `expires_at`, which therefore
keeps its column default.  Modelled from the spec: the default of the
nullable `expires_at` column (declared in the missing
`app/database/models.py`) is `NULL` — "expires_at (nullable; null = never
expires)"; `cache_hit_count := 0` and `created_at := now` as in
`mkNewAnalysis`. -/
def mkBatchAnalysis (i : Nat) (now : Nat) (e : AnalysisEntry) :
    LiteratureAnalysis :=
  { id := i
    session_id := e.session_id
    analysis_type := e.analysis_type
    content_version := e.content_version
    content_hash := e.content_hash
    results := e.results
    processing_time_ms := e.processing_time_ms
    tokens_used := e.tokens_used
    model_used := e.model_used
    is_cached := false
    cache_hit_count := 0
    created_at := now
    expires_at := none }

/-- The per-entry loop of `batch_create_literature_analyses`.  The session
is configured with `autoflush=False` (`connection.py`), so rows added but
not yet committed are invisible to the per-entry lookup: `visible` is the
transaction-visible table state (committed rows, including in-session
increments of loaded rows), `pending` the added-but-unflushed new rows.
Returns the evolving states plus the identity of the object appended to
`analysis_objects` for each entry. -/
def batchLoop (now : Nat) :
    List AnalysisEntry → Store → List LiteratureAnalysis → List Nat →
    Except DBError (Store × List LiteratureAnalysis × List Nat)
  | [], visible, pending, ids => .ok (visible, pending, ids)
  | e :: rest, visible, pending, ids =>
      match get_literature_analysis_by_hash visible e.session_id
          e.analysis_type e.content_hash now with
      | .error err => .error err
      | .ok (some existing) =>
          batchLoop now rest (updateRow visible existing.id bump) pending
            (ids ++ [existing.id])
      | .ok none =>
          let a := mkBatchAnalysis visible.nextId now e
          batchLoop now rest { visible with nextId := visible.nextId + 1 }
            (pending ++ [a]) (ids ++ [a.id])

/-- Modelled from the spec: the commit-time check of the store's
uniqueness constraint over the flushed batch (constraint declaration is in
the missing `app/database/models.py`): committing fails with a uniqueness
violation exactly when some pending row is non-expired and shares its
business key with another non-expired row of the resulting table. -/
def commitConflict (committed pending : List LiteratureAnalysis)
    (now : Nat) : Bool :=
  pending.any (fun p =>
    isLive p now &&
      decide (2 ≤ (committed ++ pending).countP (fun q =>
        matchesKey q p.session_id p.analysis_type p.content_hash &&
          isLive q now)))

/-- Embeds `batch_create_literature_analyses`: per-entry lookup-or-add, one
commit at the end, full rollback and re-`raise` of the raw store
exception on any failure.  The returned list models the
post-commit `refresh`: each appended object is re-read from the final
table by identity (the Python list holds object references, so a row hit
twice appears twice with its final field values). -/
def batch_create_literature_analyses (st : Store) (now : Nat)
    (entries : List AnalysisEntry) :
    Store × Except SurfacedError (List LiteratureAnalysis) :=
  match batchLoop now entries st [] [] with
  | .error e => (st, .error (.raw e))
  | .ok (visible, pending, ids) =>
      if commitConflict visible.rows pending now then
        (st, .error (.raw .uniqueViolation))
      else
        let st' : Store := { rows := visible.rows ++ pending
                             nextId := visible.nextId }
        (st', .ok (ids.filterMap (fun i =>
          st'.rows.find? (fun r => r.id == i))))

/-- Embeds `batch_delete_analyses`: `if analysis_ids:` is Python truthiness, so
`None` and the empty list both take the delete-whole-session branch. -/
def batch_delete_analyses (st : Store) (sid : String)
    (analysis_ids : Option (List Nat)) : Store × Nat :=
  let truthy : Bool := match analysis_ids with
    | none => false
    | some l => !l.isEmpty
  let cond : LiteratureAnalysis → Bool :=
    if truthy then
      fun r => r.session_id == sid && (analysis_ids.getD []).contains r.id
    else
      fun r => r.session_id == sid
  ({ st with rows := st.rows.filter (fun r => !cond r) },
    (st.rows.filter cond).length)

/-- A committed `MathStep` row; column set from the `save_math_steps`
construction site.  Opaque JSON columns are `Payload`. -/
structure MathStep where
  id : Nat
  session_id : String
  content_version : Int
  step_number : Int
  step_order : Int
  step_content : String
  formula : Option String
  symbolic_form : Option String
  variables_before : Option Payload
  variables_after : Option Payload
  variables_introduced : Option Payload
  is_valid : Option Bool
  validation_details : Option Payload
  errors : Option Payload
  warnings : Option Payload
  next_step_hint : Option String
  start_pos : Option Int
  end_pos : Option Int
deriving DecidableEq

/-- The committed state of the `math_steps` table plus the next
auto-assigned identity. -/
structure StepStore where
  rows : List MathStep
  nextId : Nat
deriving DecidableEq

/-- One item of the `steps` list passed to `save_math_steps`: a dict whose
keys may all be absent (`step_data.get`). -/
structure StepData where
  step_number : Option Int
  step_order : Option Int
  step_content : Option String
  formula : Option String
  symbolic_form : Option String
  variables_before : Option Payload
  variables_after : Option Payload
  variables_introduced : Option Payload
  is_valid : Option Bool
  validation_details : Option Payload
  errors : Option Payload
  warnings : Option Payload
  next_step_hint : Option String
  start_pos : Option Int
  end_pos : Option Int
deriving DecidableEq

/-- The row `save_math_steps` constructs for one item, with the source's
`.get` defaults (`step_number` 0, `step_order` 0, `step_content` ""). -/
def mkMathStep (i : Nat) (sid : String) (cver : Int) (d : StepData) :
    MathStep :=
  { id := i
    session_id := sid
    content_version := cver
    step_number := d.step_number.getD 0
    step_order := d.step_order.getD 0
    step_content := d.step_content.getD ""
    formula := d.formula
    symbolic_form := d.symbolic_form
    variables_before := d.variables_before
    variables_after := d.variables_after
    variables_introduced := d.variables_introduced
    is_valid := d.is_valid
    validation_details := d.validation_details
    errors := d.errors
    warnings := d.warnings
    next_step_hint := d.next_step_hint
    start_pos := d.start_pos
    end_pos := d.end_pos }

/-- Embeds `save_math_steps`: one row per item, identities assigned in order,
all committed in one transaction; returns the created rows in input
order. -/
def save_math_steps (st : StepStore) (sid : String) (cver : Int) :
    List StepData → StepStore × List MathStep
  | [] => (st, [])
  | d :: rest =>
      let s := mkMathStep st.nextId sid cver d
      let out := save_math_steps { rows := st.rows ++ [s], nextId := st.nextId + 1 }
        sid cver rest
      (out.1, s :: out.2)

/-- Insert into a list sorted by the boolean relation `le` (the embedding
of the store's ORDER BY). -/
def insertLe (le : MathStep → MathStep → Bool) (a : MathStep) :
    List MathStep → List MathStep
  | [] => [a]
  | b :: bs => if le a b then a :: b :: bs else b :: insertLe le a bs

/-- Sorting by the boolean relation `le`: the store's ORDER BY. -/
def sortLe (le : MathStep → MathStep → Bool) (l : List MathStep) :
    List MathStep :=
  l.foldr (insertLe le) []

/-- The ORDER BY key of `get_math_steps`: ascending `step_order`. -/
def stepOrderLe (a b : MathStep) : Bool :=
  a.step_order ≤ b.step_order

/-- Embeds `get_math_steps`: select by session (and, when given, version),
ordered by `step_order`. -/
def get_math_steps (st : StepStore) (sid : String)
    (cver : Option Int) : List MathStep :=
  sortLe stepOrderLe (st.rows.filter (fun r =>
    r.session_id == sid &&
      match cver with
      | none => true
      | some v => r.content_version == v))

/-- A value assigned through `setattr` in the patch path; the embedding
covers assignments whose value fits the target column. -/
inductive FieldVal where
  | vInt (n : Int)
  | vStr (v : String)
  | vBool (b : Bool)
  | vNull
deriving DecidableEq

/-- One element of `step_updates`: the popped `step_id` plus the
remaining field/value pairs. -/
structure StepUpdate where
  step_id : Nat
  fields : List (String × FieldVal)
deriving DecidableEq

/-- Embeds `if hasattr(step, key): setattr(step, key, value)`: any name that is
an attribute of the record is assigned (identity and scope columns
included); an unknown name leaves the record unchanged.  A `vNull` value
clears a nullable column; a value that does not fit the column is outside
the embedding and leaves the record unchanged. -/
def setStepField (s : MathStep) (key : String) (v : FieldVal) : MathStep :=
  if key = "id" then
    match v with | .vInt n => { s with id := n.toNat } | _ => s
  else if key = "session_id" then
    match v with | .vStr x => { s with session_id := x } | _ => s
  else if key = "content_version" then
    match v with | .vInt n => { s with content_version := n } | _ => s
  else if key = "step_number" then
    match v with | .vInt n => { s with step_number := n } | _ => s
  else if key = "step_order" then
    match v with | .vInt n => { s with step_order := n } | _ => s
  else if key = "step_content" then
    match v with | .vStr x => { s with step_content := x } | _ => s
  else if key = "formula" then
    match v with
    | .vStr x => { s with formula := some x }
    | .vNull => { s with formula := none }
    | _ => s
  else if key = "symbolic_form" then
    match v with
    | .vStr x => { s with symbolic_form := some x }
    | .vNull => { s with symbolic_form := none }
    | _ => s
  else if key = "variables_before" then
    match v with
    | .vStr x => { s with variables_before := some x }
    | .vNull => { s with variables_before := none }
    | _ => s
  else if key = "variables_after" then
    match v with
    | .vStr x => { s with variables_after := some x }
    | .vNull => { s with variables_after := none }
    | _ => s
  else if key = "variables_introduced" then
    match v with
    | .vStr x => { s with variables_introduced := some x }
    | .vNull => { s with variables_introduced := none }
    | _ => s
  else if key = "is_valid" then
    match v with
    | .vBool b => { s with is_valid := some b }
    | .vNull => { s with is_valid := none }
    | _ => s
  else if key = "validation_details" then
    match v with
    | .vStr x => { s with validation_details := some x }
    | .vNull => { s with validation_details := none }
    | _ => s
  else if key = "errors" then
    match v with
    | .vStr x => { s with errors := some x }
    | .vNull => { s with errors := none }
    | _ => s
  else if key = "warnings" then
    match v with
    | .vStr x => { s with warnings := some x }
    | .vNull => { s with warnings := none }
    | _ => s
  else if key = "next_step_hint" then
    match v with
    | .vStr x => { s with next_step_hint := some x }
    | .vNull => { s with next_step_hint := none }
    | _ => s
  else if key = "start_pos" then
    match v with
    | .vInt n => { s with start_pos := some n }
    | .vNull => { s with start_pos := none }
    | _ => s
  else if key = "end_pos" then
    match v with
    | .vInt n => { s with end_pos := some n }
    | .vNull => { s with end_pos := none }
    | _ => s
  else s

/-- The inner loop of the patch: apply every field/value pair through the
`hasattr`/`setattr` check. -/
def applyUpdates (s : MathStep) (fs : List (String × FieldVal)) : MathStep :=
  fs.foldl (fun s kv => setStepField s kv.1 kv.2) s

/-- Commit an in-place mutation of the step row with identity `i` (the
primary-key select loads that row). -/
def updateStepRow (st : StepStore) (i : Nat) (f : MathStep → MathStep) :
    StepStore :=
  { st with rows := st.rows.map (fun r => if r.id = i then f r else r) }

/-- Embeds `batch_update_math_steps`: per update, select the target by primary
key; when found, apply the fields and count it; when absent, skip
silently; one commit at the end. -/
def batch_update_math_steps (st : StepStore) :
    List StepUpdate → StepStore × Nat
  | [] => (st, 0)
  | u :: rest =>
      match st.rows.find? (fun r => r.id == u.step_id) with
      | some s =>
          let out := batch_update_math_steps
            (updateStepRow st s.id (fun r => applyUpdates r u.fields)) rest
          (out.1, out.2 + 1)
      | none => batch_update_math_steps st rest

/-- Modelled from the spec: "an explicit allow-listed schema for that
record kind" — the updatable Step data fields of the §3 data model
(`step_number`, `step_order`, content, formula, variable snapshots,
validity, errors, warnings, position span), which excludes the identity
and scope columns `id`, `session_id`, `content_version`. -/
def specStepAllowList : List String :=
  ["step_number", "step_order", "step_content", "formula", "symbolic_form",
   "variables_before", "variables_after", "variables_introduced",
   "is_valid", "validation_details", "errors", "warnings",
   "next_step_hint", "start_pos", "end_pos"]

/-- Modelled from the spec: the patch the spec describes, applying only
allow-listed fields and ignoring every other name. -/
def specApplyUpdates (s : MathStep) (fs : List (String × FieldVal)) :
    MathStep :=
  fs.foldl (fun s kv =>
    if specStepAllowList.contains kv.1 then setStepField s kv.1 kv.2 else s) s

/-- Modelled from the spec: `batch_update_math_steps` as §4.4 describes
it, identical to the source's loop except that field application is
restricted to the allow-listed schema. -/
def spec_batch_update_math_steps (st : StepStore) :
    List StepUpdate → StepStore × Nat
  | [] => (st, 0)
  | u :: rest =>
      match st.rows.find? (fun r => r.id == u.step_id) with
      | some s =>
          let out := spec_batch_update_math_steps
            (updateStepRow st s.id (fun r => specApplyUpdates r u.fields)) rest
          (out.1, out.2 + 1)
      | none => spec_batch_update_math_steps st rest

/-- Discriminator: does a surfaced failure carry a raw store error (as
opposed to a typed domain failure)? -/
def SurfacedError.isRaw : SurfacedError → Bool
  | .raw _ => true
  | .typed _ _ _ _ => false

/-! ## Helper lemmas -/

theorem eq_singleton_of_mem_of_length_le {α : Type} {l : List α} {r : α}
    (hm : r ∈ l) (hl : l.length ≤ 1) : l = [r] := by
  cases l with
  | nil => cases hm
  | cons a t =>
    cases t with
    | nil => simp only [List.mem_singleton] at hm; simp [hm]
    | cons b t2 => simp only [List.length_cons] at hl; omega

theorem mem_liveMatches {st : Store} {sid atype chash : String} {now : Nat}
    {r : LiteratureAnalysis} :
    r ∈ liveMatches st sid atype chash now ↔
      r ∈ st.rows ∧ matchesKey r sid atype chash = true ∧ isLive r now = true := by
  simp [liveMatches, List.mem_filter, Bool.and_eq_true, and_assoc]

theorem get_ok_some {st : Store} {sid atype chash : String} {now : Nat}
    {r : LiteratureAnalysis}
    (h : get_literature_analysis_by_hash st sid atype chash now = .ok (some r)) :
    r ∈ st.rows ∧ matchesKey r sid atype chash = true ∧ isLive r now = true := by
  unfold get_literature_analysis_by_hash at h
  rcases hL : liveMatches st sid atype chash now with _ | ⟨a, _ | ⟨b, t⟩⟩ <;>
    rw [hL] at h <;> simp at h
  exact mem_liveMatches.mp (hL ▸ (h ▸ List.mem_singleton_self a))

theorem get_ok_none {st : Store} {sid atype chash : String} {now : Nat}
    (h : liveMatches st sid atype chash now = []) :
    get_literature_analysis_by_hash st sid atype chash now = .ok none := by
  unfold get_literature_analysis_by_hash
  rw [h]

/-- Two rows that agree on every column except possibly
`cache_hit_count`. -/
def sameExceptHits (r a : LiteratureAnalysis) : Prop :=
  a.id = r.id ∧ a.session_id = r.session_id ∧ a.analysis_type = r.analysis_type
  ∧ a.content_version = r.content_version ∧ a.content_hash = r.content_hash
  ∧ a.results = r.results ∧ a.processing_time_ms = r.processing_time_ms
  ∧ a.tokens_used = r.tokens_used ∧ a.model_used = r.model_used
  ∧ a.is_cached = r.is_cached ∧ a.created_at = r.created_at
  ∧ a.expires_at = r.expires_at

theorem sameExceptHits_refl (r : LiteratureAnalysis) : sameExceptHits r r :=
  ⟨rfl, rfl, rfl, rfl, rfl, rfl, rfl, rfl, rfl, rfl, rfl, rfl⟩

theorem sameExceptHits_bump (r : LiteratureAnalysis) :
    sameExceptHits r (bump r) :=
  ⟨rfl, rfl, rfl, rfl, rfl, rfl, rfl, rfl, rfl, rfl, rfl, rfl⟩

theorem sameExceptHits_trans {r a b : LiteratureAnalysis}
    (h1 : sameExceptHits r a) (h2 : sameExceptHits a b) :
    sameExceptHits r b := by
  obtain ⟨e1, e2, e3, e4, e5, e6, e7, e8, e9, e10, e11, e12⟩ := h1
  obtain ⟨f1, f2, f3, f4, f5, f6, f7, f8, f9, f10, f11, f12⟩ := h2
  exact ⟨f1.trans e1, f2.trans e2, f3.trans e3, f4.trans e4, f5.trans e5,
    f6.trans e6, f7.trans e7, f8.trans e8, f9.trans e9, f10.trans e10,
    f11.trans e11, f12.trans e12⟩

theorem mem_updateRow_bump {st : Store} {i : Nat} {a : LiteratureAnalysis}
    (h : a ∈ (updateRow st i bump).rows) :
    ∃ r ∈ st.rows, sameExceptHits r a ∧ r.cache_hit_count ≤ a.cache_hit_count := by
  obtain ⟨r, hr, hra⟩ := List.mem_map.mp h
  refine ⟨r, hr, ?_⟩
  by_cases hid : r.id = i
  · rw [if_pos hid] at hra
    exact hra ▸ ⟨sameExceptHits_bump r, Nat.le_succ _⟩
  · rw [if_neg hid] at hra
    exact hra ▸ ⟨sameExceptHits_refl r, Nat.le_refl _⟩

theorem updateRow_bump_surj {st : Store} {i : Nat} {r : LiteratureAnalysis}
    (h : r ∈ st.rows) :
    ∃ a ∈ (updateRow st i bump).rows,
      sameExceptHits r a ∧ r.cache_hit_count ≤ a.cache_hit_count := by
  refine ⟨if r.id = i then bump r else r, List.mem_map_of_mem _ h, ?_⟩
  by_cases hid : r.id = i
  · rw [if_pos hid]
    exact ⟨sameExceptHits_bump r, Nat.le_succ _⟩
  · rw [if_neg hid]
    exact ⟨sameExceptHits_refl r, Nat.le_refl _⟩

theorem length_filterMap_find (rows : List LiteratureAnalysis) :
    ∀ ids : List Nat, (∀ i ∈ ids, ∃ r ∈ rows, r.id = i) →
    (ids.filterMap (fun i => rows.find? (fun r => r.id == i))).length =
      ids.length := by
  intro ids
  induction ids with
  | nil => intro _; rfl
  | cons i t iht =>
    intro h
    obtain ⟨r, hr, hid⟩ := h i (List.mem_cons_self i t)
    cases hf : rows.find? (fun r => r.id == i) with
    | none =>
        exfalso
        have := List.find?_eq_none.mp hf r hr
        simp [hid] at this
    | some s =>
        simp only [List.filterMap_cons, hf, List.length_cons]
        rw [iht (fun j hj => h j (List.mem_cons_of_mem _ hj))]

/-- The induction invariant of the `batch_create_literature_analyses`
loop: id count grows by one per entry, visible rows change at most in
`cache_hit_count` (never decreasing), new rows are only appended to
`pending` and carry no expiry, and every accumulated id denotes a row of
the final table. -/
theorem batchLoop_ok (now : Nat) :
    ∀ (entries : List AnalysisEntry) (vis : Store)
      (pending : List LiteratureAnalysis) (ids : List Nat)
      (vis' : Store) (pending' : List LiteratureAnalysis) (ids' : List Nat),
    batchLoop now entries vis pending ids = .ok (vis', pending', ids') →
    (∀ i ∈ ids, ∃ r, (r ∈ vis.rows ∨ r ∈ pending) ∧ r.id = i) →
    ids'.length = ids.length + entries.length
    ∧ (∀ a ∈ vis'.rows, ∃ r ∈ vis.rows,
        sameExceptHits r a ∧ r.cache_hit_count ≤ a.cache_hit_count)
    ∧ (∀ r ∈ vis.rows, ∃ a ∈ vis'.rows,
        sameExceptHits r a ∧ r.cache_hit_count ≤ a.cache_hit_count)
    ∧ (∃ news, pending' = pending ++ news
        ∧ ∀ a ∈ news, a.expires_at = none ∧ a.created_at = now
            ∧ a.is_cached = false ∧ a.cache_hit_count = 0 ∧ vis.nextId ≤ a.id)
    ∧ (∀ i ∈ ids', ∃ r, (r ∈ vis'.rows ∨ r ∈ pending') ∧ r.id = i) := by
  intro entries
  induction entries with
  | nil =>
      intro vis pending ids vis' pending' ids' h hids
      unfold batchLoop at h
      simp only [Except.ok.injEq, Prod.mk.injEq] at h
      obtain ⟨h1, h2, h3⟩ := h
      subst h1; subst h2; subst h3
      refine ⟨rfl, ?_, ?_, ⟨[], by simp, by simp⟩, hids⟩
      · intro a ha; exact ⟨a, ha, sameExceptHits_refl a, Nat.le_refl _⟩
      · intro r hr; exact ⟨r, hr, sameExceptHits_refl r, Nat.le_refl _⟩
  | cons e rest ih =>
      intro vis pending ids vis' pending' ids' h hids
      unfold batchLoop at h
      cases hg : get_literature_analysis_by_hash vis e.session_id
          e.analysis_type e.content_hash now with
      | error d => rw [hg] at h; cases h
      | ok o =>
        cases o with
        | some existing =>
            rw [hg] at h
            dsimp only at h
            have hmem := (get_ok_some hg).1
            have hids2 : ∀ i ∈ ids ++ [existing.id], ∃ r,
                (r ∈ (updateRow vis existing.id bump).rows ∨ r ∈ pending) ∧
                  r.id = i := by
              intro i hi
              rcases List.mem_append.mp hi with hi | hi
              · obtain ⟨r, hr, hid⟩ := hids i hi
                rcases hr with hr | hr
                · obtain ⟨a, ha, hsame, _⟩ := updateRow_bump_surj (i := existing.id) hr
                  exact ⟨a, Or.inl ha, hsame.1.trans hid⟩
                · exact ⟨r, Or.inr hr, hid⟩
              · simp only [List.mem_singleton] at hi
                obtain ⟨a, ha, hsame, _⟩ :=
                  updateRow_bump_surj (i := existing.id) hmem
                exact ⟨a, Or.inl ha, hsame.1.trans hi.symm⟩
            obtain ⟨l1, l2, l3, ⟨news, hnews, hnewsP⟩, l5⟩ := ih _ _ _ _ _ _ h hids2
            refine ⟨by simp only [l1, List.length_append, List.length_cons, List.length_nil]; omega,
              ?_, ?_, ⟨news, hnews, ?_⟩, l5⟩
            · intro a ha
              obtain ⟨r1, hr1, hs1, hc1⟩ := l2 a ha
              obtain ⟨r, hr, hs, hc⟩ := mem_updateRow_bump hr1
              exact ⟨r, hr, sameExceptHits_trans hs hs1, hc.trans hc1⟩
            · intro r hr
              obtain ⟨a1, ha1, hs1, hc1⟩ := updateRow_bump_surj (i := existing.id) hr
              obtain ⟨a, ha, hs, hc⟩ := l3 a1 ha1
              exact ⟨a, ha, sameExceptHits_trans hs1 hs, hc1.trans hc⟩
            · intro a ha
              exact hnewsP a ha
        | none =>
            rw [hg] at h
            dsimp only at h
            have hids2 : ∀ i ∈ ids ++ [(mkBatchAnalysis vis.nextId now e).id], ∃ r,
                (r ∈ ({ vis with nextId := vis.nextId + 1 } : Store).rows ∨
                  r ∈ pending ++ [mkBatchAnalysis vis.nextId now e]) ∧ r.id = i := by
              intro i hi
              rcases List.mem_append.mp hi with hi | hi
              · obtain ⟨r, hr, hid⟩ := hids i hi
                rcases hr with hr | hr
                · exact ⟨r, Or.inl hr, hid⟩
                · exact ⟨r, Or.inr (List.mem_append_left _ hr), hid⟩
              · simp only [List.mem_singleton] at hi
                exact ⟨mkBatchAnalysis vis.nextId now e,
                  Or.inr (List.mem_append_right _ (List.mem_singleton_self _)),
                  hi.symm⟩
            obtain ⟨l1, l2, l3, ⟨news, hnews, hnewsP⟩, l5⟩ := ih _ _ _ _ _ _ h hids2
            refine ⟨by simp only [l1, List.length_append, List.length_cons, List.length_nil]; omega,
              l2, l3,
              ⟨mkBatchAnalysis vis.nextId now e :: news, by simp [hnews], ?_⟩, l5⟩
            intro a ha
            rcases List.mem_cons.mp ha with ha | ha
            · subst ha
              exact ⟨rfl, rfl, rfl, rfl, Nat.le_refl _⟩
            · obtain ⟨p1, p2, p3, p4, p5⟩ := hnewsP a ha
              exact ⟨p1, p2, p3, p4, Nat.le_of_succ_le p5⟩

/-- C5 counterexample: the claim says an entry that misses creates a new
row with the same default TTL that `save` assigns (`expires_at = now + 1
hour`).  On the identical input, `batch_create_literature_analyses`
creates the row with `expires_at = none` while `save_literature_analysis`
creates it with `expires_at = some (now + 3600)`. -/
theorem batch_create_ttl_counterexample :
    (batch_create_literature_analyses { rows := [], nextId := 0 } 1000
        [{ session_id := "s1", analysis_type := "grammar", content_version := 1,
           content_hash := "h1", results := "res", processing_time_ms := some 1,
           tokens_used := some 2, model_used := some "m" }]).2 =
      .ok [{ id := 0, session_id := "s1", analysis_type := "grammar",
             content_version := 1, content_hash := "h1", results := "res",
             processing_time_ms := some 1, tokens_used := some 2,
             model_used := some "m", is_cached := false, cache_hit_count := 0,
             created_at := 1000, expires_at := none }]
    ∧ (save_literature_analysis { rows := [], nextId := 0 }
        { rows := [], nextId := 0 } { rows := [], nextId := 0 } 1000
        "s1" "grammar" 1 "h1" "res" 1 2 "m").2 =
      .ok { id := 0, session_id := "s1", analysis_type := "grammar",
            content_version := 1, content_hash := "h1", results := "res",
            processing_time_ms := some 1, tokens_used := some 2,
            model_used := some "m", is_cached := false, cache_hit_count := 0,
            created_at := 1000, expires_at := some 4600 }
    ∧ (none : Option Nat) ≠ some 4600 := ⟨rfl, rfl, by decide⟩

/-- C5 amended: each entry of `batch_create_literature_analyses` makes
the same hit-or-create lookup decision as `save` against the rows visible
to it, except for the TTL: a hit only increments the matched record's
`cache_hit_count`, while a miss creates a new row whose `expires_at` is
left null (no TTL) instead of `save`'s `now + 1 hour`; all entries are
committed in one transaction and one record per entry is returned (a
successfully committed batch returns exactly `entries.length` records;
every row of the resulting table is an original row changed at most in
`cache_hit_count`, or a batch-created row with no expiry; every original
row survives). -/
theorem batch_create_decision_amended (st : Store) (now : Nat)
    (entries : List AnalysisEntry) (st' : Store)
    (outs : List LiteratureAnalysis)
    (h : batch_create_literature_analyses st now entries = (st', .ok outs)) :
    outs.length = entries.length
    ∧ (∀ a ∈ st'.rows,
        (∃ r ∈ st.rows, sameExceptHits r a ∧
          r.cache_hit_count ≤ a.cache_hit_count)
        ∨ (st.nextId ≤ a.id ∧ a.expires_at = none ∧ a.created_at = now
            ∧ a.is_cached = false))
    ∧ (∀ r ∈ st.rows, ∃ a ∈ st'.rows,
        sameExceptHits r a ∧ r.cache_hit_count ≤ a.cache_hit_count) := by
  unfold batch_create_literature_analyses at h
  cases hb : batchLoop now entries st [] [] with
  | error d => rw [hb] at h; simp [Prod.ext_iff] at h
  | ok trip =>
    obtain ⟨vis, pending, ids⟩ := trip
    rw [hb] at h
    dsimp only at h
    by_cases hc : commitConflict vis.rows pending now
    · rw [if_pos hc] at h
      simp [Prod.ext_iff] at h
    · rw [if_neg hc] at h
      simp only [Prod.mk.injEq, Except.ok.injEq] at h
      obtain ⟨hst, houts⟩ := h
      obtain ⟨l1, l2, l3, ⟨news, hnews, hnewsP⟩, l5⟩ :=
        batchLoop_ok now entries st [] [] vis pending ids hb
          (by intro i hi; cases hi)
      subst hst
      refine ⟨?_, ?_, ?_⟩
      · have hcov : ∀ i ∈ ids, ∃ r ∈ vis.rows ++ pending, r.id = i := by
          intro i hi
          obtain ⟨r, hr, hid⟩ := l5 i hi
          rcases hr with hr | hr
          · exact ⟨r, List.mem_append_left _ hr, hid⟩
          · exact ⟨r, List.mem_append_right _ hr, hid⟩
        rw [← houts, length_filterMap_find _ ids hcov, l1]
        simp
      · intro a ha
        rcases List.mem_append.mp ha with ha | ha
        · exact Or.inl (l2 a ha)
        · rw [hnews] at ha
          simp only [List.nil_append] at ha
          obtain ⟨p1, p2, p3, p4, p5⟩ := hnewsP a ha
          exact Or.inr ⟨p5, p1, p2, p3⟩
      · intro r hr
        obtain ⟨a, ha, hs, hcnt⟩ := l3 r hr
        exact ⟨a, List.mem_append_left _ ha, hs, hcnt⟩

/-! ## Claims -/

/-- C2: for every (valid) state of the store and every key, the lookup
returns a record iff a row with that business key exists whose
`expires_at` is null or strictly later than the current time; an expired
row is never returned even though it is still in `Store.rows`.  The
hypothesis is the data-model invariant (at most one non-expired row per
business key), without which the underlying `scalar_one_or_none` raises
instead of returning. -/
theorem lookup_hit_iff_live_match (st : Store) (sid atype chash : String)
    (now : Nat)
    (hinv : (liveMatches st sid atype chash now).length ≤ 1) :
    (∀ r, get_literature_analysis_by_hash st sid atype chash now = .ok (some r) ↔
      (r ∈ st.rows ∧ matchesKey r sid atype chash = true ∧ isLive r now = true))
    ∧ (∀ r, r ∈ st.rows → matchesKey r sid atype chash = true →
        isLive r now = false →
        get_literature_analysis_by_hash st sid atype chash now ≠ .ok (some r)) := by
  constructor
  · intro r
    constructor
    · exact get_ok_some
    · intro hr
      have hmem : r ∈ liveMatches st sid atype chash now := mem_liveMatches.mpr hr
      have hsing := eq_singleton_of_mem_of_length_le hmem hinv
      unfold get_literature_analysis_by_hash
      rw [hsing]
  · intro r hmem hkey hdead hget
    have := (get_ok_some hget).2.2
    rw [hdead] at this
    cases this

/-- C3: a `save` call that finds no non-expired row for its business key
(also when only expired rows match) appends exactly one new record —
leaving every existing row, expired ones included, untouched — with
`cache_hit_count = 0` and `expires_at = now + 1 hour`. -/
theorem save_miss_inserts_fresh_row (st : Store) (now : Nat)
    (sid atype : String) (cver : Int) (chash : String) (res : Payload)
    (ptime tok : Int) (model : String)
    (h : liveMatches st sid atype chash now = []) :
    save_literature_analysis st st st now sid atype cver chash res ptime tok model =
      ({ rows := st.rows ++ [mkNewAnalysis st.nextId now sid atype cver chash res ptime tok model],
         nextId := st.nextId + 1 },
       .ok (mkNewAnalysis st.nextId now sid atype cver chash res ptime tok model))
    ∧ (mkNewAnalysis st.nextId now sid atype cver chash res ptime tok model).cache_hit_count = 0
    ∧ (mkNewAnalysis st.nextId now sid atype cver chash res ptime tok model).expires_at =
        some (now + oneHour)
    ∧ (save_literature_analysis st st st now sid atype cver chash res ptime tok model).1.rows.length =
        st.rows.length + 1
    ∧ ∀ r ∈ st.rows,
        r ∈ (save_literature_analysis st st st now sid atype cver chash res ptime tok model).1.rows := by
  have hget := get_ok_none h
  have hconf : insertConflicts st sid atype chash now = false := by
    simp [insertConflicts, h]
  have hsave : save_literature_analysis st st st now sid atype cver chash res ptime tok model =
      ({ rows := st.rows ++ [mkNewAnalysis st.nextId now sid atype cver chash res ptime tok model],
         nextId := st.nextId + 1 },
       .ok (mkNewAnalysis st.nextId now sid atype cver chash res ptime tok model)) := by
    unfold save_literature_analysis
    rw [hget, hconf]
    simp
  refine ⟨hsave, rfl, rfl, ?_, ?_⟩
  · rw [hsave]; simp
  · intro r hr; rw [hsave]; simp [hr]

/-- C4: a `save` call whose initial lookup hits changes nothing but the
hit record's `cache_hit_count`, which grows by exactly 1; every other
field of the record and every other row are unchanged, whatever argument
values the caller passes. -/
theorem save_hit_increments_only (st1 st2 st3 : Store) (now : Nat)
    (sid atype : String) (cver : Int) (chash : String) (res : Payload)
    (ptime tok : Int) (model : String) (r : LiteratureAnalysis)
    (h : get_literature_analysis_by_hash st1 sid atype chash now = .ok (some r)) :
    save_literature_analysis st1 st2 st3 now sid atype cver chash res ptime tok model =
      (updateRow st1 r.id bump, .ok (bump r))
    ∧ (bump r).cache_hit_count = r.cache_hit_count + 1
    ∧ (bump r).id = r.id ∧ (bump r).session_id = r.session_id
    ∧ (bump r).analysis_type = r.analysis_type
    ∧ (bump r).content_version = r.content_version
    ∧ (bump r).content_hash = r.content_hash
    ∧ (bump r).results = r.results
    ∧ (bump r).processing_time_ms = r.processing_time_ms
    ∧ (bump r).tokens_used = r.tokens_used
    ∧ (bump r).model_used = r.model_used
    ∧ (bump r).is_cached = r.is_cached
    ∧ (bump r).created_at = r.created_at
    ∧ (bump r).expires_at = r.expires_at
    ∧ ∀ q ∈ st1.rows, q.id ≠ r.id → q ∈ (updateRow st1 r.id bump).rows := by
  refine ⟨?_, rfl, rfl, rfl, rfl, rfl, rfl, rfl, rfl, rfl, rfl, rfl, rfl, rfl, ?_⟩
  · unfold save_literature_analysis
    rw [h]
  · intro q hq hne
    have : (fun x => if x.id = r.id then bump x else x) q = q := by
      simp [hne]
    exact this ▸ List.mem_map_of_mem _ hq

/-- C10: calling `batch_delete_analyses` with an empty id list behaves
exactly as calling it with no id list at all — Python truthiness sends
both to the delete-whole-session branch. -/
theorem batch_delete_empty_ids_same_as_none (st : Store) (sid : String) :
    batch_delete_analyses st sid (some []) = batch_delete_analyses st sid none := rfl

/-- C1: when the initial lookup misses and the insert attempt fails with
a uniqueness violation, `save` rolls the failed transaction back and
performs exactly one further lookup of the business key: if that lookup
finds a non-expired record it increments its `cache_hit_count` by 1 and
returns it; if it still finds none the failure is surfaced (re-raised)
and no further retry is attempted — the result is exactly determined by
that single re-lookup. -/
theorem save_conflict_rollback_single_retry (st1 st2 st3 : Store) (now : Nat)
    (sid atype : String) (cver : Int) (chash : String) (res : Payload)
    (ptime tok : Int) (model : String)
    (h1 : get_literature_analysis_by_hash st1 sid atype chash now = .ok none)
    (h2 : insertConflicts st2 sid atype chash now = true) :
    (∀ r, get_literature_analysis_by_hash st3 sid atype chash now = .ok (some r) →
      save_literature_analysis st1 st2 st3 now sid atype cver chash res ptime tok model =
        (updateRow st3 r.id bump, .ok (bump r))
      ∧ (bump r).cache_hit_count = r.cache_hit_count + 1
      ∧ r ∈ st3.rows ∧ isLive r now = true)
    ∧ (get_literature_analysis_by_hash st3 sid atype chash now = .ok none →
      save_literature_analysis st1 st2 st3 now sid atype cver chash res ptime tok model =
        (st3, .error (.raw .uniqueViolation))) := by
  constructor
  · intro r hr
    refine ⟨?_, rfl, (get_ok_some hr).1, (get_ok_some hr).2.2⟩
    unfold save_literature_analysis
    rw [h1, h2, hr]
    simp
  · intro hr
    unfold save_literature_analysis
    rw [h1, h2, hr]
    simp

/-- C6 counterexample: the claim says a provided id set — including the
empty set — restricts the delete to exactly the rows whose id is in the
set, which for the empty set means zero rows.  On a store holding one row
for the session, `batch_delete_analyses` with `some []` deletes that row
and returns 1, although its id 7 is not in the empty set. -/
theorem batch_delete_empty_set_counterexample :
    batch_delete_analyses
        { rows := [{ id := 7, session_id := "s1", analysis_type := "grammar",
                     content_version := 1, content_hash := "h1", results := "res",
                     processing_time_ms := some 5, tokens_used := some 9,
                     model_used := some "m", is_cached := false,
                     cache_hit_count := 2, created_at := 100,
                     expires_at := some 5000 }], nextId := 8 }
        "s1" (some []) =
      ({ rows := [], nextId := 8 }, 1)
    ∧ (7 ∈ ([] : List Nat)) = False
    ∧ (1 : Nat) ≠ 0 := by
  refine ⟨rfl, by simp, by decide⟩

/-- C6 amended: with a provided NONEMPTY id set, exactly the rows whose
session matches and whose id is in the set are deleted and their exact
count is returned, every other row (other ids of the session, other
sessions) remaining; with no id set, or with an EMPTY id set, all rows of
the session are deleted and counted. -/
theorem batch_delete_amended (st : Store) (sid : String) (l : List Nat) :
    (l ≠ [] →
      (∀ r, r ∈ (batch_delete_analyses st sid (some l)).1.rows ↔
        (r ∈ st.rows ∧ ¬(r.session_id = sid ∧ r.id ∈ l)))
      ∧ (batch_delete_analyses st sid (some l)).2 =
          (st.rows.filter (fun r => r.session_id == sid && l.contains r.id)).length)
    ∧ (∀ r, r ∈ (batch_delete_analyses st sid none).1.rows ↔
        (r ∈ st.rows ∧ r.session_id ≠ sid))
    ∧ (batch_delete_analyses st sid none).2 =
        (st.rows.filter (fun r => r.session_id == sid)).length
    ∧ batch_delete_analyses st sid (some []) = batch_delete_analyses st sid none := by
  refine ⟨?_, ?_, rfl, rfl⟩
  · intro hl
    have htru : (!l.isEmpty) = true := by
      cases l with
      | nil => exact absurd rfl hl
      | cons a t => rfl
    constructor
    · intro r
      simp only [batch_delete_analyses, htru, if_pos, List.mem_filter]
      simp [not_and_or, and_or_left]
      tauto
    · simp only [batch_delete_analyses, htru, if_pos]
      rfl
  · intro r
    simp only [batch_delete_analyses, List.mem_filter]
    simp

/-- C9 counterexample: the claim says every surfaced failure (other than
the absorbed single-conflict recovery) is a typed failure carrying entity
kind and key, and that no raw store error codes cross the component
boundary.  A batch of two entries with the same fresh business key makes
`batch_create_literature_analyses` surface the raw store uniqueness
violation itself — a raw store error, not a typed failure. -/
theorem raw_error_crosses_boundary_counterexample :
    (batch_create_literature_analyses { rows := [], nextId := 0 } 1000
        [{ session_id := "s1", analysis_type := "grammar", content_version := 1,
           content_hash := "h1", results := "res", processing_time_ms := some 1,
           tokens_used := some 2, model_used := some "m" },
         { session_id := "s1", analysis_type := "grammar", content_version := 1,
           content_hash := "h1", results := "res", processing_time_ms := some 1,
           tokens_used := some 2, model_used := some "m" }]).2 =
      .error (.raw .uniqueViolation)
    ∧ SurfacedError.isRaw (.raw .uniqueViolation) = true := ⟨rfl, rfl⟩

/-- C9 amended: every failure a repository write operation surfaces —
including the post-recovery consistency failure and any batch failure —
is the raw store exception re-raised after rollback; no typed failure
carrying entity kind and key is ever constructed, so raw store error
codes do cross the component boundary. -/
theorem repo_errors_surface_raw_amended :
    (∀ st1 st2 st3 now sid atype cver chash res ptime tok model st' e,
      save_literature_analysis st1 st2 st3 now sid atype cver chash res ptime tok model =
        (st', .error e) → e.isRaw = true)
    ∧ (∀ st now entries st' e,
      batch_create_literature_analyses st now entries = (st', .error e) →
      e.isRaw = true) := by
  constructor
  · intro st1 st2 st3 now sid atype cver chash res ptime tok model st' e h
    unfold save_literature_analysis at h
    cases hg : get_literature_analysis_by_hash st1 sid atype chash now with
    | error d =>
        rw [hg] at h
        simp [Prod.ext_iff] at h
        simp [← h.2, SurfacedError.isRaw]
    | ok o =>
        cases o with
        | some r =>
            rw [hg] at h
            simp [Prod.ext_iff] at h
        | none =>
            rw [hg] at h
            by_cases hc : insertConflicts st2 sid atype chash now
            · rw [if_pos hc] at h
              cases hg3 : get_literature_analysis_by_hash st3 sid atype chash now with
              | error d =>
                  rw [hg3] at h
                  simp [Prod.ext_iff] at h
                  simp [← h.2, SurfacedError.isRaw]
              | ok o3 =>
                  cases o3 with
                  | some r =>
                      rw [hg3] at h
                      simp [Prod.ext_iff] at h
                  | none =>
                      rw [hg3] at h
                      simp [Prod.ext_iff] at h
                      simp [← h.2, SurfacedError.isRaw]
            · rw [if_neg hc] at h
              simp [Prod.ext_iff] at h
  · intro st now entries st' e h
    unfold batch_create_literature_analyses at h
    cases hb : batchLoop now entries st [] [] with
    | error d =>
        rw [hb] at h
        simp [Prod.ext_iff] at h
        simp [← h.2, SurfacedError.isRaw]
    | ok trip =>
        obtain ⟨vis, pending, ids⟩ := trip
        rw [hb] at h
        dsimp only at h
        by_cases hc : commitConflict vis.rows pending now
        · rw [if_pos hc] at h
          simp [Prod.ext_iff] at h
          simp [← h.2, SurfacedError.isRaw]
        · rw [if_neg hc] at h
          simp [Prod.ext_iff] at h

/-- The attribute names of the `MathStep` record — the names `hasattr`
accepts. -/
def stepAttrNames : List String :=
  ["id", "session_id", "content_version", "step_number", "step_order",
   "step_content", "formula", "symbolic_form", "variables_before",
   "variables_after", "variables_introduced", "is_valid",
   "validation_details", "errors", "warnings", "next_step_hint",
   "start_pos", "end_pos"]

theorem setStepField_unknown (s : MathStep) (k : String) (v : FieldVal)
    (hk : stepAttrNames.contains k = false) : setStepField s k v = s := by
  unfold setStepField
  by_cases h1 : k = "id"
  · subst h1; simp [stepAttrNames] at hk
  rw [if_neg h1]
  by_cases h2 : k = "session_id"
  · subst h2; simp [stepAttrNames] at hk
  rw [if_neg h2]
  by_cases h3 : k = "content_version"
  · subst h3; simp [stepAttrNames] at hk
  rw [if_neg h3]
  by_cases h4 : k = "step_number"
  · subst h4; simp [stepAttrNames] at hk
  rw [if_neg h4]
  by_cases h5 : k = "step_order"
  · subst h5; simp [stepAttrNames] at hk
  rw [if_neg h5]
  by_cases h6 : k = "step_content"
  · subst h6; simp [stepAttrNames] at hk
  rw [if_neg h6]
  by_cases h7 : k = "formula"
  · subst h7; simp [stepAttrNames] at hk
  rw [if_neg h7]
  by_cases h8 : k = "symbolic_form"
  · subst h8; simp [stepAttrNames] at hk
  rw [if_neg h8]
  by_cases h9 : k = "variables_before"
  · subst h9; simp [stepAttrNames] at hk
  rw [if_neg h9]
  by_cases h10 : k = "variables_after"
  · subst h10; simp [stepAttrNames] at hk
  rw [if_neg h10]
  by_cases h11 : k = "variables_introduced"
  · subst h11; simp [stepAttrNames] at hk
  rw [if_neg h11]
  by_cases h12 : k = "is_valid"
  · subst h12; simp [stepAttrNames] at hk
  rw [if_neg h12]
  by_cases h13 : k = "validation_details"
  · subst h13; simp [stepAttrNames] at hk
  rw [if_neg h13]
  by_cases h14 : k = "errors"
  · subst h14; simp [stepAttrNames] at hk
  rw [if_neg h14]
  by_cases h15 : k = "warnings"
  · subst h15; simp [stepAttrNames] at hk
  rw [if_neg h15]
  by_cases h16 : k = "next_step_hint"
  · subst h16; simp [stepAttrNames] at hk
  rw [if_neg h16]
  by_cases h17 : k = "start_pos"
  · subst h17; simp [stepAttrNames] at hk
  rw [if_neg h17]
  by_cases h18 : k = "end_pos"
  · subst h18; simp [stepAttrNames] at hk
  rw [if_neg h18]

theorem setStepField_id (s : MathStep) (k : String) (v : FieldVal)
    (hk : k ≠ "id") : (setStepField s k v).id = s.id := by
  unfold setStepField
  rw [if_neg hk]
  by_cases h2 : k = "session_id"
  · rw [if_pos h2]; cases v <;> rfl
  rw [if_neg h2]
  by_cases h3 : k = "content_version"
  · rw [if_pos h3]; cases v <;> rfl
  rw [if_neg h3]
  by_cases h4 : k = "step_number"
  · rw [if_pos h4]; cases v <;> rfl
  rw [if_neg h4]
  by_cases h5 : k = "step_order"
  · rw [if_pos h5]; cases v <;> rfl
  rw [if_neg h5]
  by_cases h6 : k = "step_content"
  · rw [if_pos h6]; cases v <;> rfl
  rw [if_neg h6]
  by_cases h7 : k = "formula"
  · rw [if_pos h7]; cases v <;> rfl
  rw [if_neg h7]
  by_cases h8 : k = "symbolic_form"
  · rw [if_pos h8]; cases v <;> rfl
  rw [if_neg h8]
  by_cases h9 : k = "variables_before"
  · rw [if_pos h9]; cases v <;> rfl
  rw [if_neg h9]
  by_cases h10 : k = "variables_after"
  · rw [if_pos h10]; cases v <;> rfl
  rw [if_neg h10]
  by_cases h11 : k = "variables_introduced"
  · rw [if_pos h11]; cases v <;> rfl
  rw [if_neg h11]
  by_cases h12 : k = "is_valid"
  · rw [if_pos h12]; cases v <;> rfl
  rw [if_neg h12]
  by_cases h13 : k = "validation_details"
  · rw [if_pos h13]; cases v <;> rfl
  rw [if_neg h13]
  by_cases h14 : k = "errors"
  · rw [if_pos h14]; cases v <;> rfl
  rw [if_neg h14]
  by_cases h15 : k = "warnings"
  · rw [if_pos h15]; cases v <;> rfl
  rw [if_neg h15]
  by_cases h16 : k = "next_step_hint"
  · rw [if_pos h16]; cases v <;> rfl
  rw [if_neg h16]
  by_cases h17 : k = "start_pos"
  · rw [if_pos h17]; cases v <;> rfl
  rw [if_neg h17]
  by_cases h18 : k = "end_pos"
  · rw [if_pos h18]; cases v <;> rfl
  rw [if_neg h18]

theorem applyUpdates_id (fs : List (String × FieldVal)) :
    ∀ s : MathStep, (∀ kv ∈ fs, kv.1 ≠ "id") →
    (applyUpdates s fs).id = s.id := by
  induction fs with
  | nil => intro s _; rfl
  | cons kv t ih =>
      intro s h
      have h1 : (applyUpdates s (kv :: t)) =
          applyUpdates (setStepField s kv.1 kv.2) t := rfl
      rw [h1, ih _ (fun kv' hkv' => h kv' (List.mem_cons_of_mem _ hkv'))]
      exact setStepField_id s kv.1 kv.2 (h kv (List.mem_cons_self kv t))

theorem any_map_pointwise (g : MathStep → MathStep) (p : MathStep → Bool)
    (h : ∀ r, p (g r) = p r) :
    ∀ l : List MathStep, (l.map g).any p = l.any p := by
  intro l
  induction l with
  | nil => rfl
  | cons a t ih => simp only [List.map_cons, List.any_cons, h, ih]

theorem updateStepRow_any_id (st : StepStore) (i : Nat)
    (f : MathStep → MathStep) (hf : ∀ r, (f r).id = r.id) (v : Nat) :
    (updateStepRow st i f).rows.any (fun r => r.id == v) =
      st.rows.any (fun r => r.id == v) := by
  have hpt : ∀ r : MathStep,
      ((if r.id = i then f r else r).id == v) = (r.id == v) := by
    intro r
    by_cases h : r.id = i
    · simp [h, hf]
    · simp [h]
  exact any_map_pointwise _ _ hpt st.rows

theorem batch_update_count :
    ∀ (updates : List StepUpdate) (st : StepStore),
    (∀ u ∈ updates, ∀ kv ∈ u.fields, kv.1 ≠ "id") →
    (batch_update_math_steps st updates).2 =
      (updates.filter (fun u => st.rows.any (fun r => r.id == u.step_id))).length := by
  intro updates
  induction updates with
  | nil => intro st _; rfl
  | cons u rest ih =>
      intro st hid
      unfold batch_update_math_steps
      cases hf : st.rows.find? (fun r => r.id == u.step_id) with
      | some s =>
          have hp := List.find?_some hf
          have hmem := List.mem_of_find?_eq_some hf
          have hany : st.rows.any (fun r => r.id == u.step_id) = true :=
            List.any_eq_true.mpr ⟨s, hmem, hp⟩
          have hrest := ih (updateStepRow st s.id (fun r => applyUpdates r u.fields))
            (fun u' hu' => hid u' (List.mem_cons_of_mem _ hu'))
          have hsame : rest.filter (fun u' =>
              (updateStepRow st s.id (fun r => applyUpdates r u.fields)).rows.any
                (fun r => r.id == u'.step_id)) =
            rest.filter (fun u' => st.rows.any (fun r => r.id == u'.step_id)) := by
            apply List.filter_congr
            intro u' hu'
            exact updateStepRow_any_id st s.id _
              (fun r => applyUpdates_id u.fields r
                (hid u (List.mem_cons_self u rest))) u'.step_id
          simp only [hrest, hsame, List.filter_cons, hany, if_pos,
            List.length_cons]
      | none =>
          have hany : st.rows.any (fun r => r.id == u.step_id) = false := by
            rw [List.any_eq_false]
            intro r hr
            have := List.find?_eq_none.mp hf r hr
            simpa using this
          have hrest := ih st (fun u' hu' => hid u' (List.mem_cons_of_mem _ hu'))
          simp only [hrest, List.filter_cons, hany]
          rfl

theorem batch_update_frame :
    ∀ (updates : List StepUpdate) (st : StepStore) (r : MathStep),
    r ∈ st.rows → (∀ u ∈ updates, u.step_id ≠ r.id) →
    r ∈ (batch_update_math_steps st updates).1.rows := by
  intro updates
  induction updates with
  | nil => intro st r hr _; exact hr
  | cons u rest ih =>
      intro st r hr huns
      unfold batch_update_math_steps
      cases hf : st.rows.find? (fun r => r.id == u.step_id) with
      | some s =>
          have hsid : s.id = u.step_id := by
            have := List.find?_some hf
            simpa using this
          have hrs : r.id ≠ s.id := by
            rw [hsid]
            exact fun hc => huns u (List.mem_cons_self u rest) hc.symm
          have hr2 : r ∈ (updateStepRow st s.id (fun x => applyUpdates x u.fields)).rows := by
            have himg : (fun x => if x.id = s.id then applyUpdates x u.fields else x) r = r := by
              simp [hrs]
            exact himg ▸ List.mem_map_of_mem _ hr
          exact ih _ r hr2 (fun u' hu' => huns u' (List.mem_cons_of_mem _ hu'))
      | none => exact ih st r hr (fun u' hu' => huns u' (List.mem_cons_of_mem _ hu'))

theorem batch_update_rows_length :
    ∀ (updates : List StepUpdate) (st : StepStore),
    (batch_update_math_steps st updates).1.rows.length = st.rows.length := by
  intro updates
  induction updates with
  | nil => intro st; rfl
  | cons u rest ih =>
      intro st
      unfold batch_update_math_steps
      cases hf : st.rows.find? (fun r => r.id == u.step_id) with
      | some s =>
          rw [ih]
          simp [updateStepRow]
      | none => exact ih st

/-- Fixture: one persisted step row. -/
def sampleStep : MathStep :=
  { id := 1, session_id := "s1", content_version := 1, step_number := 1,
    step_order := 1, step_content := "a", formula := none,
    symbolic_form := none, variables_before := none, variables_after := none,
    variables_introduced := none, is_valid := none, validation_details := none,
    errors := none, warnings := none, next_step_hint := none,
    start_pos := none, end_pos := none }

/-- C7 counterexample: the claim says only field names of an explicit
allow-listed schema for the record kind are applied.  The source applies
any name that is an attribute of the record: an update carrying the scope
column `session_id` — which the spec's allow-listed Step schema does not
contain — is applied by the code, while the spec-modelled allow-listed
patch ignores it. -/
theorem batch_update_allowlist_counterexample :
    (batch_update_math_steps { rows := [sampleStep], nextId := 2 }
        [{ step_id := 1, fields := [("session_id", .vStr "s2")] }]).1.rows.map
        (fun r => r.session_id) = ["s2"]
    ∧ (spec_batch_update_math_steps { rows := [sampleStep], nextId := 2 }
        [{ step_id := 1, fields := [("session_id", .vStr "s2")] }]).1.rows.map
        (fun r => r.session_id) = ["s1"]
    ∧ specStepAllowList.contains "session_id" = false
    ∧ (batch_update_math_steps { rows := [sampleStep], nextId := 2 }
        [{ step_id := 1, fields := [("session_id", .vStr "s2")] }]).1 ≠
      (spec_batch_update_math_steps { rows := [sampleStep], nextId := 2 }
        [{ step_id := 1, fields := [("session_id", .vStr "s2")] }]).1 := by
  refine ⟨rfl, rfl, rfl, by decide⟩

/-- C7 amended: on each existing target, the patch applies any field name
that exists as an attribute of the record — identity and scope columns
such as `session_id` included — not only an allow-listed schema; names
that are not attributes are ignored without error; targets that do not
exist are skipped silently without failing the batch; and the returned
count equals the number of targets actually found (the operation is total:
one existing plus one nonexistent target yields exactly 1).  Rows never
targeted are untouched and no row is created or deleted. -/
theorem batch_update_reflective_amended (st : StepStore)
    (updates : List StepUpdate)
    (hid : ∀ u ∈ updates, ∀ kv ∈ u.fields, kv.1 ≠ "id") :
    (batch_update_math_steps st updates).2 =
      (updates.filter (fun u => st.rows.any (fun r => r.id == u.step_id))).length
    ∧ (∀ r ∈ st.rows, (∀ u ∈ updates, u.step_id ≠ r.id) →
        r ∈ (batch_update_math_steps st updates).1.rows)
    ∧ (batch_update_math_steps st updates).1.rows.length = st.rows.length
    ∧ (∀ (s : MathStep) (k : String) (v : FieldVal),
        stepAttrNames.contains k = false → setStepField s k v = s)
    ∧ (∀ (s : MathStep) (x : String),
        (setStepField s "session_id" (.vStr x)).session_id = x) := by
  refine ⟨batch_update_count updates st hid,
    fun r hr h => batch_update_frame updates st r hr h,
    batch_update_rows_length updates st,
    setStepField_unknown, fun s x => rfl⟩

theorem length_insertLe (le : MathStep → MathStep → Bool) (a : MathStep) :
    ∀ l, (insertLe le a l).length = l.length + 1 := by
  intro l
  induction l with
  | nil => rfl
  | cons b bs ih =>
      unfold insertLe
      by_cases h : le a b
      · simp [h]
      · simp [h, ih]

theorem length_sortLe (le : MathStep → MathStep → Bool) :
    ∀ l, (sortLe le l).length = l.length := by
  intro l
  induction l with
  | nil => rfl
  | cons a t ih =>
      have : sortLe le (a :: t) = insertLe le a (sortLe le t) := rfl
      rw [this, length_insertLe, ih]
      rfl

theorem mem_insertLe (le : MathStep → MathStep → Bool) (a : MathStep) :
    ∀ l y, y ∈ insertLe le a l ↔ y = a ∨ y ∈ l := by
  intro l
  induction l with
  | nil => intro y; simp [insertLe]
  | cons b bs ih =>
      intro y
      unfold insertLe
      by_cases h : le a b = true
      · rw [if_pos h]
        simp [List.mem_cons]
      · rw [if_neg h]
        simp only [List.mem_cons, ih y]
        tauto

theorem pairwise_insertLe (le : MathStep → MathStep → Bool)
    (htrans : ∀ a b c, le a b = true → le b c = true → le a c = true)
    (htot : ∀ a b, le a b = true ∨ le b a = true) (a : MathStep) :
    ∀ l, l.Pairwise (fun x y => le x y = true) →
      (insertLe le a l).Pairwise (fun x y => le x y = true) := by
  intro l
  induction l with
  | nil => intro _; simp [insertLe]
  | cons b bs ih =>
      intro hp
      unfold insertLe
      by_cases h : le a b = true
      · rw [if_pos h]
        refine List.Pairwise.cons ?_ hp
        intro y hy
        rcases List.mem_cons.mp hy with hy | hy
        · exact hy ▸ h
        · exact htrans a b y h (List.rel_of_pairwise_cons hp hy)
      · rw [if_neg h]
        refine List.Pairwise.cons ?_ (ih (List.Pairwise.of_cons hp))
        intro y hy
        rcases (mem_insertLe le a bs y).mp hy with hy | hy
        · rcases htot a b with hab | hba
          · exact absurd hab h
          · exact hy ▸ hba
        · exact List.rel_of_pairwise_cons hp hy

theorem pairwise_sortLe (le : MathStep → MathStep → Bool)
    (htrans : ∀ a b c, le a b = true → le b c = true → le a c = true)
    (htot : ∀ a b, le a b = true ∨ le b a = true) :
    ∀ l, (sortLe le l).Pairwise (fun x y => le x y = true) := by
  intro l
  induction l with
  | nil => exact List.Pairwise.nil
  | cons a t ih =>
      have : sortLe le (a :: t) = insertLe le a (sortLe le t) := rfl
      rw [this]
      exact pairwise_insertLe le htrans htot a _ ih

theorem stepOrderLe_trans (a b c : MathStep) (hab : stepOrderLe a b = true)
    (hbc : stepOrderLe b c = true) : stepOrderLe a c = true := by
  simp only [stepOrderLe, decide_eq_true_eq] at hab hbc ⊢
  omega

theorem stepOrderLe_total (a b : MathStep) :
    stepOrderLe a b = true ∨ stepOrderLe b a = true := by
  simp only [stepOrderLe, decide_eq_true_eq]
  exact Int.le_total _ _

theorem save_math_steps_spec (sid : String) (cver : Int) :
    ∀ (items : List StepData) (st : StepStore),
    (save_math_steps st sid cver items).1.rows =
      st.rows ++ (save_math_steps st sid cver items).2
    ∧ (save_math_steps st sid cver items).2.length = items.length
    ∧ ∀ s ∈ (save_math_steps st sid cver items).2,
        s.session_id = sid ∧ s.content_version = cver := by
  intro items
  induction items with
  | nil =>
      intro st
      refine ⟨by simp [save_math_steps], rfl, ?_⟩
      intro s hs
      cases hs
  | cons d rest ih =>
      intro st
      have hunf : save_math_steps st sid cver (d :: rest) =
          ((save_math_steps
              ⟨st.rows ++ [mkMathStep st.nextId sid cver d], st.nextId + 1⟩
              sid cver rest).1,
            mkMathStep st.nextId sid cver d ::
              (save_math_steps
                ⟨st.rows ++ [mkMathStep st.nextId sid cver d], st.nextId + 1⟩
                sid cver rest).2) := rfl
      obtain ⟨ih1, ih2, ih3⟩ :=
        ih ⟨st.rows ++ [mkMathStep st.nextId sid cver d], st.nextId + 1⟩
      refine ⟨?_, ?_, ?_⟩
      · rw [hunf]
        dsimp only
        rw [ih1]
        simp
      · rw [hunf]
        dsimp only
        rw [List.length_cons, ih2, List.length_cons]
      · rw [hunf]
        dsimp only
        intro s hs
        rcases List.mem_cons.mp hs with hs | hs
        · exact hs ▸ ⟨rfl, rfl⟩
        · exact ih3 s hs

/-- C8: saving a list of step items into a scope holding no prior rows
and reading the same scope back returns exactly as many items as were
saved, and the returned sequence is ordered by non-decreasing
`step_order`. -/
theorem save_many_get_many_count_order (st : StepStore) (sid : String)
    (cver : Int) (items : List StepData)
    (h : st.rows.filter
        (fun r => r.session_id == sid && r.content_version == cver) = []) :
    (save_math_steps st sid cver items).2.length = items.length
    ∧ (get_math_steps (save_math_steps st sid cver items).1 sid
        (some cver)).length = items.length
    ∧ (get_math_steps (save_math_steps st sid cver items).1 sid
        (some cver)).Pairwise (fun a b => a.step_order ≤ b.step_order) := by
  obtain ⟨h1, h2, h3⟩ := save_math_steps_spec sid cver items st
  have hpred : (save_math_steps st sid cver items).1.rows.filter
      (fun r => r.session_id == sid && r.content_version == cver) =
      (save_math_steps st sid cver items).2 := by
    rw [h1, List.filter_append, h, List.nil_append]
    apply List.filter_eq_self.mpr
    intro s hs
    obtain ⟨hsid, hcv⟩ := h3 s hs
    simp [hsid, hcv]
  have hget : get_math_steps (save_math_steps st sid cver items).1 sid
      (some cver) =
      sortLe stepOrderLe ((save_math_steps st sid cver items).1.rows.filter
        (fun r => r.session_id == sid && r.content_version == cver)) := rfl
  refine ⟨h2, ?_, ?_⟩
  · rw [hget, hpred, length_sortLe, h2]
  · rw [hget]
    have := pairwise_sortLe stepOrderLe stepOrderLe_trans stepOrderLe_total
      ((save_math_steps st sid cver items).1.rows.filter
        (fun r => r.session_id == sid && r.content_version == cver))
    exact this.imp (fun hxy => by
      simpa [stepOrderLe, decide_eq_true_eq] using hxy)

/-! ## Concrete fixtures and witnesses -/

/-- Fixture: a live cached row. -/
def row1 : LiteratureAnalysis :=
  { id := 7, session_id := "s1", analysis_type := "grammar",
    content_version := 1, content_hash := "h1", results := "res",
    processing_time_ms := some 5, tokens_used := some 9,
    model_used := some "m", is_cached := false, cache_hit_count := 2,
    created_at := 100, expires_at := some 5000 }

/-- Fixture: an expired cached row with the same business key. -/
def rowExpired : LiteratureAnalysis :=
  { id := 6, session_id := "s1", analysis_type := "grammar",
    content_version := 1, content_hash := "h1", results := "old",
    processing_time_ms := some 5, tokens_used := some 9,
    model_used := some "m", is_cached := false, cache_hit_count := 0,
    created_at := 10, expires_at := some 500 }

/-- Fixture: a store holding the live row. -/
def store1 : Store := ⟨[row1], 8⟩

/-- Fixture: a store holding only the expired row. -/
def storeExpired : Store := ⟨[rowExpired], 8⟩

/-- Fixture: the empty store. -/
def emptyStore : Store := ⟨[], 0⟩

/-- Fixture: one batch entry. -/
def entry1 : AnalysisEntry :=
  { session_id := "s1", analysis_type := "grammar", content_version := 1,
    content_hash := "h1", results := "res", processing_time_ms := some 1,
    tokens_used := some 2, model_used := some "m" }

/-- Fixture: a patch update on an existing step. -/
def upd1 : StepUpdate := ⟨1, [("step_order", .vInt 2)]⟩

/-- Fixture: a patch update on a nonexistent step. -/
def upd99 : StepUpdate := ⟨99, [("step_order", .vInt 3)]⟩

/-- Fixture: step items with out-of-order `step_order` keys. -/
def stepD1 : StepData :=
  { step_number := some 1, step_order := some 5, step_content := some "a",
    formula := none, symbolic_form := none, variables_before := none,
    variables_after := none, variables_introduced := none, is_valid := none,
    validation_details := none, errors := none, warnings := none,
    next_step_hint := none, start_pos := none, end_pos := none }

/-- Fixture: second step item. -/
def stepD2 : StepData :=
  { step_number := some 2, step_order := some 3, step_content := some "b",
    formula := none, symbolic_form := none, variables_before := none,
    variables_after := none, variables_introduced := none, is_valid := none,
    validation_details := none, errors := none, warnings := none,
    next_step_hint := none, start_pos := none, end_pos := none }

/-- Witness for C1 at a concrete racing run: the first lookup misses, a
concurrent writer has committed `row1`, the insert conflicts, and the
single re-lookup resolves the call into a hit on `row1`. -/
theorem save_conflict_rollback_single_retry_witness :
    get_literature_analysis_by_hash emptyStore "s1" "grammar" "h1" 1000 = .ok none
    ∧ insertConflicts store1 "s1" "grammar" "h1" 1000 = true
    ∧ save_literature_analysis emptyStore store1 store1 1000
        "s1" "grammar" 1 "h1" "res" 5 9 "m" =
      (updateRow store1 row1.id bump, .ok (bump row1)) :=
  ⟨rfl, rfl,
    ((save_conflict_rollback_single_retry emptyStore store1 store1 1000
      "s1" "grammar" 1 "h1" "res" 5 9 "m" rfl rfl).1 row1 rfl).1⟩

/-- Witness for C2 at a concrete store satisfying the uniqueness
invariant. -/
theorem lookup_hit_iff_live_match_witness :
    (liveMatches store1 "s1" "grammar" "h1" 1000).length ≤ 1
    ∧ (get_literature_analysis_by_hash store1 "s1" "grammar" "h1" 1000 =
        .ok (some row1) ↔
      (row1 ∈ store1.rows ∧ matchesKey row1 "s1" "grammar" "h1" = true
        ∧ isLive row1 1000 = true)) :=
  ⟨by decide,
    (lookup_hit_iff_live_match store1 "s1" "grammar" "h1" 1000 (by decide)).1 row1⟩

/-- Witness for C3 at a store whose only matching row is expired: the
save inserts a fresh record and leaves the expired row in place. -/
theorem save_miss_inserts_fresh_row_witness :
    liveMatches storeExpired "s1" "grammar" "h1" 1000 = []
    ∧ save_literature_analysis storeExpired storeExpired storeExpired 1000
        "s1" "grammar" 1 "h1" "res" 5 9 "m" =
      ({ rows := storeExpired.rows ++
          [mkNewAnalysis 8 1000 "s1" "grammar" 1 "h1" "res" 5 9 "m"],
         nextId := 9 },
       .ok (mkNewAnalysis 8 1000 "s1" "grammar" 1 "h1" "res" 5 9 "m")) :=
  ⟨rfl,
    (save_miss_inserts_fresh_row storeExpired 1000 "s1" "grammar" 1 "h1"
      "res" 5 9 "m" rfl).1⟩

/-- Witness for C4 at a concrete hit. -/
theorem save_hit_increments_only_witness :
    get_literature_analysis_by_hash store1 "s1" "grammar" "h1" 1000 =
      .ok (some row1)
    ∧ save_literature_analysis store1 store1 store1 1000
        "s1" "grammar" 9 "h1" "other" 0 0 "q" =
      (updateRow store1 row1.id bump, .ok (bump row1)) :=
  ⟨rfl,
    (save_hit_increments_only store1 store1 store1 1000 "s1" "grammar" 9 "h1"
      "other" 0 0 "q" row1 rfl).1⟩

/-- Witness for C5 (amended) at a concrete singleton batch. -/
theorem batch_create_decision_amended_witness :
    batch_create_literature_analyses emptyStore 1000 [entry1] =
      (⟨[mkBatchAnalysis 0 1000 entry1], 1⟩, .ok [mkBatchAnalysis 0 1000 entry1])
    ∧ [mkBatchAnalysis 0 1000 entry1].length = [entry1].length :=
  ⟨rfl,
    (batch_create_decision_amended emptyStore 1000 [entry1]
      ⟨[mkBatchAnalysis 0 1000 entry1], 1⟩ [mkBatchAnalysis 0 1000 entry1]
      rfl).1⟩

/-- Witness for C6 (amended) at a concrete nonempty id set. -/
theorem batch_delete_amended_witness :
    ([7] : List Nat) ≠ []
    ∧ (batch_delete_analyses store1 "s1" (some [7])).2 =
        (store1.rows.filter
          (fun r => r.session_id == "s1" && ([7] : List Nat).contains r.id)).length :=
  ⟨by decide, ((batch_delete_amended store1 "s1" [7]).1 (by decide)).2⟩

/-- Witness for C7 (amended) at one existing plus one nonexistent target:
the returned count is exactly the number of found targets. -/
theorem batch_update_reflective_amended_witness :
    (∀ u ∈ [upd1, upd99], ∀ kv ∈ u.fields, kv.1 ≠ "id")
    ∧ (batch_update_math_steps ⟨[sampleStep], 2⟩ [upd1, upd99]).2 =
        ([upd1, upd99].filter
          (fun u => (⟨[sampleStep], 2⟩ : StepStore).rows.any
            (fun r => r.id == u.step_id))).length :=
  ⟨by decide,
    (batch_update_reflective_amended ⟨[sampleStep], 2⟩ [upd1, upd99]
      (by decide)).1⟩

/-- Witness for C8 at a fresh scope with two out-of-order items. -/
theorem save_many_get_many_count_order_witness :
    (⟨[], 0⟩ : StepStore).rows.filter
        (fun r => r.session_id == "s1" && r.content_version == (1 : Int)) = []
    ∧ (get_math_steps (save_math_steps ⟨[], 0⟩ "s1" 1 [stepD1, stepD2]).1
        "s1" (some 1)).length = [stepD1, stepD2].length :=
  ⟨rfl,
    (save_many_get_many_count_order ⟨[], 0⟩ "s1" 1 [stepD1, stepD2] rfl).2.1⟩

/-- Witness for C9 (amended) at a concrete failing batch run. -/
theorem repo_errors_surface_raw_amended_witness :
    batch_create_literature_analyses emptyStore 1000 [entry1, entry1] =
      (emptyStore, .error (.raw .uniqueViolation))
    ∧ SurfacedError.isRaw (.raw .uniqueViolation) = true :=
  ⟨rfl,
    repo_errors_surface_raw_amended.2 emptyStore 1000 [entry1, entry1]
      emptyStore (.raw .uniqueViolation) rfl⟩

end AnalysisRepo
